import Mathlib

/- Verification development for the NodeApiQuick request dispatcher
   (lib/ApiQuick.js).  Request paths are modelled as lists of characters;
   the JavaScript string primitives used by the code (lastIndexOf,
   substring) are embedded with their JavaScript clamping semantics. -/

set_option maxHeartbeats 1000000

/-- Character strings, the model of JavaScript string values. -/
abbrev Str := List Char

/-- JavaScript String.prototype.lastIndexOf specialised to a one-character
needle: the greatest index holding the character, or -1 when absent. -/
def jsLastIndexOf : Str → Char → Int
  | [], _ => -1
  | x :: xs, c =>
    let r := jsLastIndexOf xs c
    if 0 ≤ r then r + 1
    else if x = c then 0 else -1

/-- JavaScript String.prototype.substring: both indices are clamped into
the string bounds and swapped when given in reverse order. -/
def jsSubstring (s : Str) (a b : Int) : Str :=
  let n : Int := s.length
  let a2 := min (max a 0) n
  let b2 := min (max b 0) n
  (s.take (max a2 b2).toNat).drop (min a2 b2).toNat

/-- The dict returned by ApiQuick._checkParamsSupplied (lines 212-250):
an ok flag, a code, an optional error string, and, on success, the
matched handler and the collected positional arguments.  The handler
type is a parameter so the resolver can be studied independently of the
handler representation. -/
structure ResolveResult (H : Type) where
  ok : Bool
  code : Int
  error : Option Str
  handler : Option H
  args : Option (List Str)
deriving DecidableEq

/-- The while loop of _checkParamsSupplied (lines 230-248).  The fuel
counter stands for maxDepth + 1 - depth, so the loop guard
depth <= maxDepth becomes fuel > 0 and the inner depth+1 > maxDepth
test becomes fuel = 1.  On a hit the code also executes
returnDict.handler.auth = returnDict.handler && returnDict.handler.auth
(line 234), a self-assignment with no observable effect, so it is not
modelled. -/
def resolveLoop {H : Type} (routes : Str → Option H) (fail : ResolveResult H) :
    Nat → Str → List Str → ResolveResult H
  | 0, _, _ => fail
  | fuel + 1, endpoint, args =>
    match routes endpoint with
    | some h => { fail with ok := true, handler := some h, args := some args, error := none }
    | none =>
      if fuel = 0 then fail
      else
        let endIndex := jsLastIndexOf endpoint '/'
        if endIndex ≠ 0 then
          resolveLoop routes fail fuel (jsSubstring endpoint 0 endIndex)
            (jsSubstring endpoint (endIndex + 1) endpoint.length :: args)
        else fail

/-- Trailing-slash normalisation at the top of _checkParamsSupplied
(lines 213-217): a single trailing slash is removed. -/
def normalizePath (pathname : Str) : Str :=
  if pathname.getLast? = some '/' then
    jsSubstring pathname 0 ((pathname.length : Int) - 1)
  else pathname

/-- The text prefixed to the missing endpoint in the 404 error message
(line 222). -/
def noEndpointMsg : Str := ("No endpoint ").data

/-- ApiQuick._checkParamsSupplied (lines 212-250): normalise the path,
build the 404 return dict naming the normalised endpoint, then run the
bounded lookup loop. -/
def checkParamsSupplied {H : Type} (routes : Str → Option H) (maxDepth : Nat)
    (pathname : Str) : ResolveResult H :=
  let endpoint := normalizePath pathname
  let returnDict : ResolveResult H :=
    { ok := false, code := 404, error := some (noEndpointMsg ++ endpoint),
      handler := none, args := none }
  resolveLoop routes returnDict (maxDepth + 1) endpoint []

/-- Joins path segments each preceded by a slash, so that a registered
path P followed by suffix segments a1 .. ad reads P/a1/.../ad. -/
def joinSegs : List Str → Str
  | [] => []
  | a :: rest => ('/' :: a) ++ joinSegs rest

/-- One strip step of the resolution loop: cut the string at its last
slash, keeping the part before it. -/
def stripOnce (e : Str) : Str := jsSubstring e 0 (jsLastIndexOf e '/')

/-- Iterated strip steps. -/
def stripIter : Nat → Str → Str
  | 0, e => e
  | k + 1, e => stripIter k (stripOnce e)

/- ## Lemmas about the embedded JavaScript string primitives -/

theorem jsLastIndexOf_of_not_mem {s : Str} {c : Char} (h : c ∉ s) :
    jsLastIndexOf s c = -1 := by
  induction s with
  | nil => rfl
  | cons x xs ih =>
    have hx : ¬x = c := by rintro rfl; exact h (List.mem_cons_self _ _)
    have hxs : c ∉ xs := fun hm => h (List.mem_cons_of_mem _ hm)
    simp [jsLastIndexOf, ih hxs, hx]

theorem jsLastIndexOf_append_cons {ys : Str} {c : Char} (h : c ∉ ys) (xs : Str) :
    jsLastIndexOf (xs ++ c :: ys) c = (xs.length : Int) := by
  induction xs with
  | nil => simp [jsLastIndexOf, jsLastIndexOf_of_not_mem h]
  | cons x xs ih =>
    have hnn : (0 : Int) ≤ (xs.length : Int) := Int.natCast_nonneg _
    simp only [List.cons_append, jsLastIndexOf, List.append_eq, ih, List.length_cons]
    rw [if_pos hnn]
    push_cast
    ring

theorem jsSubstring_of_le (s : Str) (a b : Nat) (hab : a ≤ b) (hb : b ≤ s.length) :
    jsSubstring s (a : Int) (b : Int) = (s.take b).drop a := by
  have h1 : min (max (a : Int) 0) (s.length : Int) = a := by omega
  have h2 : min (max (b : Int) 0) (s.length : Int) = b := by omega
  simp only [jsSubstring, h1, h2]
  have h3 : min (a : Int) (b : Int) = a := by omega
  have h4 : max (a : Int) (b : Int) = b := by omega
  simp [h3, h4]

theorem jsSubstring_append_left (xs ys : Str) :
    jsSubstring (xs ++ ys) 0 (xs.length : Int) = xs := by
  have h := jsSubstring_of_le (xs ++ ys) 0 xs.length (Nat.zero_le _)
    (by simp)
  rw [List.take_left, List.drop_zero] at h
  exact_mod_cast h

theorem jsSubstring_append_right (xs ys : Str) :
    jsSubstring (xs ++ ys) (xs.length : Int) ((xs ++ ys).length : Int) = ys := by
  have h := jsSubstring_of_le (xs ++ ys) xs.length (xs ++ ys).length
    (by simp) (le_refl _)
  rw [List.take_length, List.drop_left] at h
  exact h

theorem joinSegs_append (s t : List Str) :
    joinSegs (s ++ t) = joinSegs s ++ joinSegs t := by
  induction s with
  | nil => simp [joinSegs]
  | cons a rest ih => simp [joinSegs, ih]

theorem getLast?_mem_of_eq_some {l : Str} {x : Char} (h : l.getLast? = some x) :
    x ∈ l := by
  induction l with
  | nil => simp at h
  | cons a t ih =>
    match t, h with
    | [], h => simp_all
    | b :: t, h =>
      rw [List.getLast?_cons_cons] at h
      exact List.mem_cons_of_mem _ (ih h)

/- ## Behaviour of the resolution loop -/

theorem resolveLoop_strip {H : Type} (routes : Str → Option H) (fail : ResolveResult H)
    (P : Str) (hP : P ≠ []) :
    ∀ (segs : List Str) (args : List Str) (fuel : Nat),
      (∀ a ∈ segs, '/' ∉ a) →
      segs.length < fuel →
      (∀ k, 1 ≤ k → k ≤ segs.length → routes (P ++ joinSegs (segs.take k)) = none) →
      resolveLoop routes fail fuel (P ++ joinSegs segs) args
        = resolveLoop routes fail (fuel - segs.length) P (segs ++ args) := by
  intro segs
  induction segs using List.reverseRecOn with
  | nil =>
    intro args fuel _ _ _
    simp [joinSegs]
  | append_singleton init a ih =>
    intro args fuel hseg hlen hmiss
    obtain ⟨f, rfl⟩ : ∃ f, fuel = f + 1 := ⟨fuel - 1, by omega⟩
    have hlen' : init.length + 1 ≤ f := by
      simp only [List.length_append, List.length_cons, List.length_nil] at hlen
      omega
    have hmissFull : routes (P ++ joinSegs (init ++ [a])) = none := by
      have hlenfull : init.length + 1 = (init ++ [a]).length := by simp
      have h := hmiss (init.length + 1) (by omega) (le_of_eq hlenfull)
      rw [hlenfull, List.take_length] at h
      exact h
    have hsla : '/' ∉ a := hseg a (by simp)
    have hdecomp : P ++ joinSegs (init ++ [a]) = (P ++ joinSegs init) ++ '/' :: a := by
      simp [joinSegs_append, joinSegs]
    have hIdx : jsLastIndexOf (P ++ joinSegs (init ++ [a])) '/'
        = (((P ++ joinSegs init).length : Nat) : Int) := by
      rw [hdecomp]
      exact jsLastIndexOf_append_cons hsla _
    have hQpos : 0 < (P ++ joinSegs init).length := by
      have : 0 < P.length := List.length_pos.mpr hP
      simp only [List.length_append]
      omega
    have hQne : (((P ++ joinSegs init).length : Nat) : Int) ≠ 0 := by
      omega
    have hsub1 : jsSubstring (P ++ joinSegs (init ++ [a])) 0
        (((P ++ joinSegs init).length : Nat) : Int) = P ++ joinSegs init := by
      rw [hdecomp]
      exact jsSubstring_append_left _ _
    have hsub2 : jsSubstring (P ++ joinSegs (init ++ [a]))
        ((((P ++ joinSegs init).length : Nat) : Int) + 1)
        ((P ++ joinSegs (init ++ [a])).length : Int) = a := by
      have hre : P ++ joinSegs (init ++ [a]) = ((P ++ joinSegs init) ++ ['/']) ++ a := by
        rw [hdecomp]
        simp
      have hlen2 : ((((P ++ joinSegs init) ++ ['/']).length : Nat) : Int)
          = (((P ++ joinSegs init).length : Nat) : Int) + 1 := by
        simp only [List.length_append, List.length_cons, List.length_nil]
        push_cast
        omega
      rw [hre, ← hlen2]
      exact jsSubstring_append_right _ _
    have step : resolveLoop routes fail (f + 1) (P ++ joinSegs (init ++ [a])) args
        = resolveLoop routes fail f (P ++ joinSegs init) (a :: args) := by
      simp only [resolveLoop, hmissFull]
      rw [if_neg (by omega : ¬f = 0)]
      simp only [hIdx]
      rw [if_pos hQne, hsub1, hsub2]
    have hmissInit : ∀ k, 1 ≤ k → k ≤ init.length →
        routes (P ++ joinSegs (init.take k)) = none := by
      intro k hk1 hk2
      have hlen3 : k ≤ (init ++ [a]).length := by
        simp only [List.length_append, List.length_cons, List.length_nil]
        omega
      have h := hmiss k hk1 hlen3
      rwa [List.take_append_of_le_length hk2] at h
    have harith : f + 1 - (init ++ [a]).length = f - init.length := by
      simp only [List.length_append, List.length_cons, List.length_nil]
      omega
    have hargs2 : init ++ [a] ++ args = init ++ a :: args := by simp
    rw [step, ih (a :: args) f
      (fun b hb => hseg b (List.mem_append_left _ hb)) (by omega) hmissInit,
      harith, hargs2]

theorem resolveLoop_notFound {H : Type} (routes : Str → Option H)
    (fail : ResolveResult H) :
    ∀ (fuel : Nat) (e : Str) (args : List Str),
      (∀ k, k < fuel → routes (stripIter k e) = none) →
      resolveLoop routes fail fuel e args = fail := by
  intro fuel
  induction fuel with
  | zero => intro e args _; rfl
  | succ f ih =>
    intro e args hmiss
    have h0 : routes e = none := by
      have h := hmiss 0 (Nat.succ_pos _)
      simpa [stripIter] using h
    by_cases hf : f = 0
    · simp [resolveLoop, h0, hf]
    · simp only [resolveLoop, h0]
      rw [if_neg hf]
      by_cases hIdx : jsLastIndexOf e '/' ≠ 0
      · rw [if_pos hIdx]
        apply ih
        intro k hk
        have h := hmiss (k + 1) (by omega)
        simpa [stripIter, stripOnce] using h
      · rw [if_neg hIdx]

theorem getLast?_joinSegs_path {P : Str} (hPlast : P.getLast? ≠ some '/')
    (segs : List Str) (hsegs : ∀ a ∈ segs, a ≠ [] ∧ '/' ∉ a) :
    (P ++ joinSegs segs).getLast? ≠ some '/' := by
  induction segs using List.reverseRecOn with
  | nil => simpa [joinSegs] using hPlast
  | append_singleton init a _ =>
    have ha := hsegs a (by simp)
    have hdecomp : P ++ joinSegs (init ++ [a]) = (P ++ joinSegs init) ++ '/' :: a := by
      simp [joinSegs_append, joinSegs]
    rw [hdecomp, List.getLast?_append_cons]
    obtain ⟨b, t, rfl⟩ : ∃ b t, a = b :: t := by
      cases a with
      | nil => exact absurd rfl ha.1
      | cons b t => exact ⟨b, t, rfl⟩
    rw [List.getLast?_cons_cons]
    intro hcon
    exact ha.2 (getLast?_mem_of_eq_some hcon)

/-- C1: for every route table, every registered path P and every suffix
depth d with d <= maxDepth, resolving the request path P/a1/.../ad (when
no deeper registered path matches a longer prefix) returns matched with
exactly the handler registered at P and the positional arguments
[a1, ..., ad] in order; for d = 0 the handler is returned with an empty
argument list.  The hypotheses require P to be a nonempty key without a
trailing slash and the suffix segments to be nonempty and slash-free,
exactly the shape of paths and segments the registration and URL layers
produce. -/
theorem C1_routeResolution {H : Type} (routes : Str → Option H) (maxDepth : Nat)
    (P : Str) (h : H) (segs : List Str)
    (hP : routes P = some h) (hPne : P ≠ []) (hPlast : P.getLast? ≠ some '/')
    (hsegs : ∀ a ∈ segs, a ≠ [] ∧ '/' ∉ a)
    (hd : segs.length ≤ maxDepth)
    (hmiss : ∀ k, 1 ≤ k → k ≤ segs.length →
      routes (P ++ joinSegs (segs.take k)) = none) :
    checkParamsSupplied routes maxDepth (P ++ joinSegs segs)
      = { ok := true, code := 404, error := none, handler := some h,
          args := some segs } := by
  have hnorm : normalizePath (P ++ joinSegs segs) = P ++ joinSegs segs := by
    rw [normalizePath, if_neg]
    exact getLast?_joinSegs_path hPlast segs hsegs
  simp only [checkParamsSupplied]
  rw [hnorm]
  rw [resolveLoop_strip routes _ P hPne segs [] (maxDepth + 1)
    (fun a ha => (hsegs a ha).2) (by omega) hmiss]
  obtain ⟨g, hg⟩ : ∃ g, maxDepth + 1 - segs.length = g + 1 :=
    ⟨maxDepth - segs.length, by omega⟩
  rw [hg]
  simp [resolveLoop, hP]

/-- Concrete witness for C1: the registration of scenario 1 and the
request of scenario 2 of the spec. -/
theorem C1_routeResolution_witness :
    checkParamsSupplied
        (fun e => if e = ("/users/get").data then some 7 else none) 1
        (("/users/get").data ++ joinSegs [("extra").data])
      = { ok := true, code := 404, error := none, handler := some 7,
          args := some [("extra").data] } :=
  C1_routeResolution (fun e => if e = ("/users/get").data then some 7 else none) 1
    (("/users/get").data) 7 [("extra").data]
    (by decide) (by decide) (by decide) (by decide) (by decide)
    (by
      intro k hk1 hk2
      have hk : k = 1 := by
        simp only [List.length_cons, List.length_nil] at hk2
        omega
      subst hk
      decide)

/-- C3 (amended): a request whose probed endpoints all miss (in particular
a path with more than maxDepth extra segments beyond the nearest
registered ancestor) resolves to a not-matched result with code 404 whose
error message names the normalised request path, that is the supplied
path with a single trailing slash removed. -/
theorem C3_notFoundAmended {H : Type} (routes : Str → Option H) (maxDepth : Nat)
    (pathname : Str)
    (hmiss : ∀ k, k ≤ maxDepth → routes (stripIter k (normalizePath pathname)) = none) :
    checkParamsSupplied routes maxDepth pathname
      = { ok := false, code := 404,
          error := some (noEndpointMsg ++ normalizePath pathname),
          handler := none, args := none } := by
  simp only [checkParamsSupplied]
  apply resolveLoop_notFound
  intro k hk
  exact hmiss k (by omega)

/-- Witness for C3 (amended): with only /a registered and maxDepth 1, the
request /a/b/c has two extra segments and is rejected with a 404 naming
the path. -/
theorem C3_notFoundAmended_witness :
    checkParamsSupplied (fun e => if e = ("/a").data then some 7 else none) 1
        (("/a/b/c").data)
      = { ok := false, code := 404,
          error := some (noEndpointMsg ++ normalizePath (("/a/b/c").data)),
          handler := none, args := none } :=
  C3_notFoundAmended (fun e => if e = ("/a").data then some 7 else none) 1
    (("/a/b/c").data)
    (by
      intro k hk
      interval_cases k
      · decide
      · decide)

/-- C3 counterexample: the claim says the 404 error names the original
request path as supplied by the client, but for the supplied path
/unknown/path/ the code strips the trailing slash before building the
message, so the message names /unknown/path and does not contain the
supplied path at all. -/
theorem C3_trailingSlashCounterexample :
    (checkParamsSupplied (fun _ => (none : Option Nat)) 1
        (("/unknown/path/").data)).error
      = some (noEndpointMsg ++ ("/unknown/path").data)
    ∧ (checkParamsSupplied (fun _ => (none : Option Nat)) 1
        (("/unknown/path/").data)).error
      ≠ some (noEndpointMsg ++ ("/unknown/path/").data)
    ∧ ¬ (("/unknown/path/").data <:+: (noEndpointMsg ++ ("/unknown/path").data)) :=
  ⟨by decide, by decide, by decide⟩

/- ## Authentication -/

/-- An authentication function as used by the dispatcher: it receives the
decoded user and pass fields (either may be absent) and its callback
argument receives the boolean decision; the decision value is what the
model returns. -/
abbrev AuthFn := Option Str → Option Str → Bool

/-- The value of the auth property attached to a handler function object:
never assigned (undefined), explicitly the value false, or an
authentication function.  These are the three values the registration
surface produces. -/
inductive AuthOverride where
  | undef
  | fls
  | fn (f : AuthFn)

/-- JavaScript truthiness of an auth property value: a function is
truthy, undefined and false are falsy. -/
def AuthOverride.jsTruthy : AuthOverride → Bool
  | .fn _ => true
  | _ => false

/-- Discriminates the strict comparison handler_auth === false. -/
def AuthOverride.isFls : AuthOverride → Bool
  | .fls => true
  | _ => false

/-- ApiQuick._checkAuthDetails (lines 269-278).  The returned boolean is
the value passed to the callback cb.  The branch for handler_auth === false
has an empty body in the source, so control falls through to the final
cb(true). -/
def checkAuthDetails (handler_auth : AuthOverride) (checkAuth : Option AuthFn)
    (user pass : Option Str) : Bool :=
  if handler_auth.jsTruthy then
    match handler_auth with
    | .fn f => f user pass
    | _ => true
  else if handler_auth.isFls then
    true
  else
    match checkAuth with
    | some g => g user pass
    | none => true

/-- C4: the authorization decision follows the precedence table: a
function override is the sole decider regardless of the global function;
an override explicitly set to false authorizes unconditionally regardless
of the global function; with the override unset a configured global
function decides; with neither configured the callback receives true. -/
theorem C4_authPrecedence (ca : Option AuthFn) (u p : Option Str) (f g : AuthFn) :
    checkAuthDetails (AuthOverride.fn f) ca u p = f u p
    ∧ checkAuthDetails AuthOverride.fls ca u p = true
    ∧ checkAuthDetails AuthOverride.undef (some g) u p = g u p
    ∧ checkAuthDetails AuthOverride.undef none u p = true :=
  ⟨rfl, rfl, rfl, rfl⟩

/- ## Handler registration (addEndpoints) -/

/-- The nested dict of functions passed to addEndpoints (lines 184-204).
Function values are identified by a number standing for the JavaScript
function object identity, so that one function object can appear under
several keys.  A dict is an ordered list of key-value entries, matching
the for-in iteration order. -/
inductive RouteDict where
  | nil
  | fn (id : Nat)
  | cons (key : Str) (val : RouteDict) (rest : RouteDict)

/-- The registration state: the routes table of the server, and the auth
property carried by each function object (d[k].auth), keyed by function
identity. -/
structure RegState where
  routes : Str → Option Nat
  auths : Nat → AuthOverride

/-- Pointwise update of the routes table (routes['/' + ...] = d[k]). -/
def setRoute (r : Str → Option Nat) (k : Str) (v : Nat) : Str → Option Nat :=
  fun e => if e = k then some v else r e

/-- Pointwise update of the function-object auth property
(d[k].auth = extra.auth). -/
def setAuth (a : Nat → AuthOverride) (i : Nat) (v : AuthOverride) :
    Nat → AuthOverride :=
  fun j => if j = i then v else a j

/-- stack.join of the key stack with the slash separator. -/
def joinKeys : List Str → Str
  | [] => []
  | [k] => k
  | k :: rest => k ++ '/' :: joinKeys rest

/-- The recursive walk _r of addEndpoints (lines 187-201): for each entry,
a function value first receives the auth property when extra.auth is
truthy and is then stored in routes under the slash-joined stack; a dict
value is walked recursively with its key pushed on the stack. -/
def addDict (extraAuth : AuthOverride) : List Str → RegState → RouteDict → RegState
  | _, st, .nil => st
  | _, st, .fn _ => st
  | stack, st, .cons k (.fn id) rest =>
    let st1 := if extraAuth.jsTruthy then
        { st with auths := setAuth st.auths id extraAuth }
      else st
    let st2 := { st1 with routes := setRoute st1.routes ('/' :: joinKeys (stack ++ [k])) id }
    addDict extraAuth stack st2 rest
  | stack, st, .cons _k .nil rest =>
    addDict extraAuth stack st rest
  | stack, st, .cons k (.cons k2 v2 r2) rest =>
    addDict extraAuth stack (addDict extraAuth (stack ++ [k]) st (.cons k2 v2 r2)) rest

/-- ApiQuick.addEndpoints (lines 184-204): walk the nested dict starting
from an empty key stack.  extra.auth is AuthOverride.undef when the extra
dict is absent or carries no auth key. -/
def addEndpoints (route : RouteDict) (extraAuth : AuthOverride) (st : RegState) :
    RegState :=
  addDict extraAuth [] st route

theorem addEndpoints_single_routes (id : Nat) (a : AuthOverride) (st : RegState)
    (p : Str) :
    (addEndpoints (.cons p (.fn id) .nil) a st).routes
      = setRoute st.routes ('/' :: p) id := by
  simp only [addEndpoints, addDict]
  by_cases h : a.jsTruthy <;> simp [h, joinKeys]

theorem addEndpoints_single_auths (id : Nat) (a : AuthOverride) (st : RegState)
    (p : Str) :
    (addEndpoints (.cons p (.fn id) .nil) a st).auths
      = if a.jsTruthy then setAuth st.auths id a else st.auths := by
  simp only [addEndpoints, addDict]
  by_cases h : a.jsTruthy <;> simp [h]

/-- C10 (amended): the auth override lives as a mutable property on the
function object itself, so two registrations of the same function under
different routes leave both routes bound to that one function with one
shared auth property; the shared property equals the extra.auth of the
most recent registration whose extra.auth was truthy (a function), and a
registration with an absent or false extra.auth leaves the property
unchanged. -/
theorem C10_sharedAuthAmended (a1 a2 : AuthOverride) (p1 p2 : Str) (id : Nat)
    (st0 : RegState) :
    (addEndpoints (.cons p2 (.fn id) .nil) a2
        (addEndpoints (.cons p1 (.fn id) .nil) a1 st0)).routes ('/' :: p1) = some id
    ∧ (addEndpoints (.cons p2 (.fn id) .nil) a2
        (addEndpoints (.cons p1 (.fn id) .nil) a1 st0)).routes ('/' :: p2) = some id
    ∧ (addEndpoints (.cons p2 (.fn id) .nil) a2
        (addEndpoints (.cons p1 (.fn id) .nil) a1 st0)).auths id
      = (if a2.jsTruthy then a2 else if a1.jsTruthy then a1 else st0.auths id) := by
  refine ⟨?_, ?_, ?_⟩
  · rw [addEndpoints_single_routes]
    by_cases hp : ('/' :: p1 : Str) = '/' :: p2
    · simp [setRoute, hp]
    · simp only [setRoute, if_neg hp, addEndpoints_single_routes]
      simp [setRoute]
  · rw [addEndpoints_single_routes]
    simp [setRoute]
  · simp only [addEndpoints_single_auths]
    by_cases h1 : a1.jsTruthy <;> by_cases h2 : a2.jsTruthy <;>
      simp [h1, h2, setAuth]

/-- C10 counterexample: registering the same function object first with a
function auth override and then, under another route, with auth false,
does not replace the shared property: a falsy extra.auth is skipped by
the truthiness test in addEndpoints, so the
shared override stays the first function instead of the most recent
value. -/
theorem C10_lastRegistrationCounterexample :
    (addEndpoints (.cons (("b").data) (.fn 0) .nil) AuthOverride.fls
        (addEndpoints (.cons (("a").data) (.fn 0) .nil)
          (AuthOverride.fn (fun _ _ => false))
          { routes := fun _ => none, auths := fun _ => AuthOverride.undef })).auths 0
      = AuthOverride.fn (fun _ _ => false)
    ∧ (addEndpoints (.cons (("b").data) (.fn 0) .nil) AuthOverride.fls
        (addEndpoints (.cons (("a").data) (.fn 0) .nil)
          (AuthOverride.fn (fun _ _ => false))
          { routes := fun _ => none, auths := fun _ => AuthOverride.undef })).auths 0
      ≠ AuthOverride.fls
    ∧ (addEndpoints (.cons (("b").data) (.fn 0) .nil) AuthOverride.fls
        (addEndpoints (.cons (("a").data) (.fn 0) .nil)
          (AuthOverride.fn (fun _ _ => false))
          { routes := fun _ => none, auths := fun _ => AuthOverride.undef })).routes
        ('/' :: ("a").data) = some 0
    ∧ (addEndpoints (.cons (("b").data) (.fn 0) .nil) AuthOverride.fls
        (addEndpoints (.cons (("a").data) (.fn 0) .nil)
          (AuthOverride.fn (fun _ _ => false))
          { routes := fun _ => none, auths := fun _ => AuthOverride.undef })).routes
        ('/' :: ("b").data) = some 0 := by
  refine ⟨rfl, ?_, ?_, ?_⟩
  · intro h
    exact AuthOverride.noConfusion h
  · rfl
  · rfl

/- ## The response writer -/

/-- A JavaScript exception value as observed by the dispatcher: its
string form (what a string concatenation with it produces) and its
optional stack property. -/
structure JsErr where
  str : Str
  stack : Option Str := none
deriving DecidableEq

/-- The payload object handed to _writeResponse: the envelope fields the
writer inspects (ok, code, error, msg, e) plus any handler-defined rest
of the object, carried opaquely. -/
structure JsObj where
  ok : Option Bool := none
  code : Option Int := none
  error : Option Str := none
  msg : Option Str := none
  e : Option Str := none
  rest : List (Str × Str) := []
deriving DecidableEq

/-- The extra overrides dict accepted by _writeResponse: an optional
status line text, an optional status code, and an optional exception
object. -/
structure ExtraObj where
  status : Option Str := none
  code : Option Int := none
  e : Option JsErr := none
deriving DecidableEq

/-- The headers computed by _getHeaders (lines 256-267). -/
structure Headers where
  contentType : Str
  xContentTypeOptions : Str
  xFrameOptions : Str
  wwwAuthenticate : Option Str
deriving DecidableEq

/-- ApiQuick._getHeaders (lines 256-267): the three fixed headers, plus
the WWW-Authenticate hint exactly when the supplied data is an object
whose code field equals 401 (data && data.code == 401).  The argument is
none when the data reaching the writer was a falsy primitive, whose code
property is undefined. -/
def getHeaders (data : Option JsObj) : Headers :=
  { contentType := ("application/json").data
    xContentTypeOptions := ("nosniff").data
    xFrameOptions := ("DENY").data
    wwwAuthenticate :=
      if Option.bind data JsObj.code = some 401 then
        some (("Basic user:pass").data)
      else none }

/-- The JavaScript a || b chain over an optional number against a
default: 0 and undefined are falsy. -/
def intOr (a : Option Int) (d : Int) : Int :=
  match a with
  | some n => if n = 0 then d else n
  | none => d

/-- The JavaScript a || b chain over an optional string against a
default: the empty string and undefined are falsy. -/
def strOr (a : Option Str) (d : Str) : Str :=
  match a with
  | some s => if s = [] then d else s
  | none => d

/-- The serialized body: either the payload object or the string form of
a falsy payload after the coercion data = '' + data. -/
inductive BodyVal where
  | obj (o : JsObj)
  | prim (s : Str)
deriving DecidableEq

/-- What one res.writeHead/res.end pair observes: the target response
sink, the status code, the status message, the headers and the payload
that is serialized as the body (pretty-printing only changes whitespace
and is not modelled). -/
structure WriteRecord where
  target : Nat
  code : Int
  statusMsg : Str
  headers : Headers
  body : BodyVal
deriving DecidableEq

/-- The first argument of _writeResponse as actually passed at its call
sites: a genuine response sink (carrying writeHead and end), or a plain
object with no such methods, as happens at the rate-limit call site
(line 42) where the 429 envelope itself is passed in the res position. -/
inductive ResArg where
  | sink (id : Nat)
  | obj (o : JsObj)

/-- The string form of calling writeHead on a plain object. -/
def typeErrorWriteHead : JsErr :=
  { str := ("TypeError: res.writeHead is not a function").data }

/-- The string form of reading property e of undefined. -/
def typeErrorExtraE : JsErr :=
  { str := ("TypeError: Cannot read property e of undefined").data }

/-- The server configuration fields the dispatch pipeline reads, with the
defaults assigned in init (lines 59-69).  checkAuth is none while the
initial value false is in place and some f once auth(f) was called. -/
structure Config where
  maxDepth : Nat := 1
  debug : Bool := false
  prettyJson : Bool := false
  fullRequest : Bool := false
  rateLimit : Bool := false
  checkAuth : Option AuthFn := none

/-- ApiQuick._writeResponse (lines 287-307).  A falsy data value (none)
is coerced to the string form of undefined and then has no object
fields; a missing extra defaults to the empty dict; status message and
code follow the || chains of lines 291-292; in debug mode an exception
passed through extra.e is attached to the payload as e when the payload
has no e field (assignment on a coerced primitive is a silent no-op);
finally res.writeHead(code, statusMsg, header) runs, which on a plain
object target throws a TypeError before anything is written. -/
def writeResponse (cfg : Config) (res : ResArg) (data : Option JsObj)
    (extra : Option ExtraObj) : Except JsErr WriteRecord :=
  let extraO := extra.getD {}
  let header := getHeaders data
  let statusMsg := strOr extraO.status (strOr (Option.bind data JsObj.error)
    (strOr (Option.bind data JsObj.msg) (("success").data)))
  let code := intOr extraO.code (intOr (Option.bind data JsObj.code) 200)
  let body : BodyVal :=
    match data with
    | some o =>
      match extraO.e with
      | some er =>
        if cfg.debug ∧ o.e = none then
          BodyVal.obj { o with e := some (strOr er.stack er.str) }
        else BodyVal.obj o
      | none => BodyVal.obj o
    | none => BodyVal.prim (("undefined").data)
  match res with
  | ResArg.sink i =>
    Except.ok { target := i, code := code, statusMsg := statusMsg,
                headers := header, body := body }
  | ResArg.obj _ => Except.error typeErrorWriteHead

/-- The default configuration produced by init without extra settings. -/
def cfg0 : Config := {}

theorem intOr_some_ne {n : Int} (a : Option Int) (d : Int) (h : a = some n)
    (h0 : n ≠ 0) : intOr a d = n := by
  rw [h]; simp [intOr, h0]

theorem intOr_falsy {a : Option Int} (d : Int) (h : a = none ∨ a = some 0) :
    intOr a d = d := by
  rcases h with h | h <;> simp [intOr, h]

theorem strOr_some_ne {s : Str} (a : Option Str) (d : Str) (h : a = some s)
    (h0 : s ≠ []) : strOr a d = s := by
  rw [h]; simp [strOr, h0]

theorem strOr_falsy {a : Option Str} (d : Str) (h : a = none ∨ a = some []) :
    strOr a d = d := by
  rcases h with h | h <;> simp [strOr, h]

theorem writeResponse_sink_fields (cfg : Config) (i : Nat) (data : Option JsObj)
    (extra : Option ExtraObj) (w : WriteRecord)
    (hw : writeResponse cfg (ResArg.sink i) data extra = Except.ok w) :
    w.code = intOr ((extra.getD {}).code) (intOr (Option.bind data JsObj.code) 200)
    ∧ w.statusMsg = strOr ((extra.getD {}).status)
        (strOr (Option.bind data JsObj.error)
          (strOr (Option.bind data JsObj.msg) (("success").data)))
    ∧ w.headers = getHeaders data
    ∧ w.target = i := by
  simp only [writeResponse] at hw
  injection hw with h
  subst h
  exact ⟨rfl, rfl, rfl, rfl⟩

/-- C5 (amended): the status code is the first truthy of overrides.code,
data.code, 200, and the status text the first truthy of overrides.status,
data.error, data.msg, the literal success; a field that is present but
carries the falsy value 0 (for codes) or the empty string (for texts) is
skipped, because the source computes both with JavaScript || chains. -/
theorem C5_statusPrecedenceAmended (cfg : Config) (i : Nat) (data : Option JsObj)
    (extra : Option ExtraObj) (w : WriteRecord)
    (hw : writeResponse cfg (ResArg.sink i) data extra = Except.ok w) :
    ((∀ n, (extra.getD {}).code = some n → n ≠ 0 → w.code = n)
      ∧ (((extra.getD {}).code = none ∨ (extra.getD {}).code = some 0) →
          ∀ m, Option.bind data JsObj.code = some m → m ≠ 0 → w.code = m)
      ∧ (((extra.getD {}).code = none ∨ (extra.getD {}).code = some 0) →
          (Option.bind data JsObj.code = none ∨ Option.bind data JsObj.code = some 0) →
          w.code = 200))
    ∧ ((∀ s, (extra.getD {}).status = some s → s ≠ [] → w.statusMsg = s)
      ∧ (((extra.getD {}).status = none ∨ (extra.getD {}).status = some []) →
          ∀ s, Option.bind data JsObj.error = some s → s ≠ [] → w.statusMsg = s)
      ∧ (((extra.getD {}).status = none ∨ (extra.getD {}).status = some []) →
          (Option.bind data JsObj.error = none ∨ Option.bind data JsObj.error = some []) →
          ∀ s, Option.bind data JsObj.msg = some s → s ≠ [] → w.statusMsg = s)
      ∧ (((extra.getD {}).status = none ∨ (extra.getD {}).status = some []) →
          (Option.bind data JsObj.error = none ∨ Option.bind data JsObj.error = some []) →
          (Option.bind data JsObj.msg = none ∨ Option.bind data JsObj.msg = some []) →
          w.statusMsg = ("success").data)) := by
  obtain ⟨hcode, hmsg, -, -⟩ := writeResponse_sink_fields cfg i data extra w hw
  constructor
  · refine ⟨?_, ?_, ?_⟩
    · intro n hn hn0
      rw [hcode, intOr_some_ne _ _ hn hn0]
    · intro hfalsy m hm hm0
      rw [hcode, intOr_falsy _ hfalsy, intOr_some_ne _ _ hm hm0]
    · intro hfalsy1 hfalsy2
      rw [hcode, intOr_falsy _ hfalsy1, intOr_falsy _ hfalsy2]
  · refine ⟨?_, ?_, ?_, ?_⟩
    · intro s hs hs0
      rw [hmsg, strOr_some_ne _ _ hs hs0]
    · intro hfalsy s hs hs0
      rw [hmsg, strOr_falsy _ hfalsy, strOr_some_ne _ _ hs hs0]
    · intro hfalsy1 hfalsy2 s hs hs0
      rw [hmsg, strOr_falsy _ hfalsy1, strOr_falsy _ hfalsy2,
        strOr_some_ne _ _ hs hs0]
    · intro hfalsy1 hfalsy2 hfalsy3
      rw [hmsg, strOr_falsy _ hfalsy1, strOr_falsy _ hfalsy2, strOr_falsy _ hfalsy3]

/-- Witness for C5 (amended): with no overrides and a payload code 7, the
written status code is 7. -/
theorem C5_statusPrecedenceAmended_witness :
    ({ target := 0, code := 7, statusMsg := ("success").data,
       headers := getHeaders (some { code := some 7 }),
       body := BodyVal.obj { code := some 7 } } : WriteRecord).code = 7 := by
  have h := C5_statusPrecedenceAmended cfg0 0 (some { code := some 7 }) none
    { target := 0, code := 7, statusMsg := ("success").data,
      headers := getHeaders (some { code := some 7 }),
      body := BodyVal.obj { code := some 7 } } rfl
  exact h.1.2.1 (Or.inl rfl) 7 rfl (by decide)

/-- C5 counterexample: overrides.code is present with value 0 and
data.code is 404; the written status code is 404, not the present
overrides.code, refuting the claim that a present overrides.code always
wins. -/
theorem C5_presenceCounterexample :
    (writeResponse cfg0 (ResArg.sink 0) (some { code := some 404 })
        (some { code := some 0 })).toOption.map WriteRecord.code = some 404
    ∧ (writeResponse cfg0 (ResArg.sink 0) (some { code := some 404 })
        (some { code := some 0 })).toOption.map WriteRecord.code ≠ some 0 :=
  ⟨by decide, by decide⟩

/-- C6 (amended): every write carries content-type application/json,
X-Content-Type-Options nosniff and X-Frame-Options DENY, and carries
WWW-Authenticate Basic user:pass exactly when the code field of the
payload object equals 401 — which coincides with the HTTP status code only when
no overrides.code is given. -/
theorem C6_headersAmended (cfg : Config) (i : Nat) (data : Option JsObj)
    (extra : Option ExtraObj) (w : WriteRecord)
    (hw : writeResponse cfg (ResArg.sink i) data extra = Except.ok w) :
    w.headers.contentType = ("application/json").data
    ∧ w.headers.xContentTypeOptions = ("nosniff").data
    ∧ w.headers.xFrameOptions = ("DENY").data
    ∧ (w.headers.wwwAuthenticate = some (("Basic user:pass").data)
        ↔ Option.bind data JsObj.code = some 401) := by
  obtain ⟨-, -, hh, -⟩ := writeResponse_sink_fields cfg i data extra w hw
  rw [hh]
  unfold getHeaders
  refine ⟨rfl, rfl, rfl, ?_⟩
  by_cases h : Option.bind data JsObj.code = some 401 <;> simp [h]

/-- Witness for C6 (amended): a payload whose code field is 401 receives
the WWW-Authenticate hint. -/
theorem C6_headersAmended_witness :
    ({ target := 0, code := 401, statusMsg := ("success").data,
       headers := getHeaders (some { code := some 401 }),
       body := BodyVal.obj { code := some 401 } } : WriteRecord).headers.wwwAuthenticate
      = some (("Basic user:pass").data) := by
  have h := C6_headersAmended cfg0 0 (some { code := some 401 }) none
    { target := 0, code := 401, statusMsg := ("success").data,
      headers := getHeaders (some { code := some 401 }),
      body := BodyVal.obj { code := some 401 } } rfl
  exact h.2.2.2.mpr rfl

/-- C6 counterexample: with overrides.code = 401 and no payload code, the
HTTP status code of the response is 401 yet no WWW-Authenticate header is
attached, refuting that the header appears exactly when the status code
is 401 (the source keys the header on data.code, line 262). -/
theorem C6_statusCodeCounterexample :
    (writeResponse cfg0 (ResArg.sink 0) (some {}) (some { code := some 401 })).toOption.map
        WriteRecord.code = some 401
    ∧ (writeResponse cfg0 (ResArg.sink 0) (some {}) (some { code := some 401 })).toOption.map
        (fun w => w.headers.wwwAuthenticate) = some none :=
  ⟨by decide, by decide⟩

/- ## The dispatcher -/

/-- An inbound request as the dispatch pipeline sees it: method, parsed
pathname, the body populated by the body-parsing middleware or the GET
query parsing, the auth details decoded from the authorization header
(Modelled from the spec: Auth.decodeAuthDetails lives in lib/auth.js,
which is not part of the sources; the spec describes AuthDetails as a
user and a pass, either possibly absent, decoded once per request), and
the remote address. -/
structure Request where
  method : Str
  pathname : Str
  body : List (Str × Str) := []
  user : Option Str := none
  pass : Option Str := none
  ip : Str := []

/-- The data given to a handler by _getRequestData (lines 309-321):
either the full request (with args and ip attached) or the reduced view. -/
inductive ReqData where
  | full (r : Request) (args : Option (List Str))
  | reduced (method : Str) (args : Option (List Str)) (body : List (Str × Str)) (ip : Str)

/-- One invocation of the completion callback by an asynchronous handler:
the values it passes as (err, result, extra). -/
structure CbCall where
  err : Option JsErr := none
  result : Option JsObj := none
  extra : Option ExtraObj := none

/-- A registered handler function object.  length is the declared
parameter count (fn.length); auth is the attached auth property; syncRun
describes the behaviour when called with one argument (return a value or
throw); asyncRun describes the behaviour when called with the completion
callback (throw, return without having invoked the callback, or invoke
the callback once with the recorded arguments before returning). -/
structure Handler where
  length : Nat
  auth : AuthOverride := AuthOverride.undef
  syncRun : ReqData → Except JsErr (Option JsObj)
  asyncRun : ReqData → Except JsErr (Option CbCall)

/-- ApiQuick._getRequestData (lines 309-321). -/
def getRequestData (cfg : Config) (req : Request) (args : Option (List Str)) :
    ReqData :=
  if cfg.fullRequest then ReqData.full req args
  else ReqData.reduced req.method args req.body req.ip

/-- The callback the dispatcher hands to an asynchronous handler
(lines 361-366): if err is truthy it stores err into extra.e when that
field is absent — which reads the e property of extra first, so a missing
extra object makes this very read throw — and then writes the response
from (result, extra). -/
def dispatcherCb (cfg : Config) (res : ResArg) (c : CbCall) :
    Except JsErr WriteRecord :=
  match c.err with
  | some er =>
    match c.extra with
    | none => Except.error typeErrorExtraE
    | some ex =>
      let ex2 := if ex.e = none then { ex with e := some er } else ex
      writeResponse cfg res c.result (some ex2)
  | none => writeResponse cfg res c.result c.extra

/-- The body of the setTimeout deferral in _process (lines 357-380): the
inner try around the handler invocation.  A handler with two or more
declared parameters runs asynchronously through dispatcherCb; one with
fewer runs synchronously and its return value is written immediately.
Whatever throws inside — the handler itself, or the callback it invoked
synchronously — is caught and written as a 500 envelope carrying the
string form of the exception.  The returned value is the write performed for
the request, or none when the handler returned without invoking its
callback, leaving the request pending. -/
def handlerStage (cfg : Config) (handler : Handler) (data : ReqData)
    (res : ResArg) : Option WriteRecord :=
  let attempt : Except JsErr (Option WriteRecord) :=
    if handler.length ≥ 2 then
      match handler.asyncRun data with
      | Except.error e => Except.error e
      | Except.ok none => Except.ok none
      | Except.ok (some c) => (dispatcherCb cfg res c).map some
    else
      match handler.syncRun data with
      | Except.error e => Except.error e
      | Except.ok ret => (writeResponse cfg res ret none).map some
  match attempt with
  | Except.ok w => w
  | Except.error e =>
    match writeResponse cfg res
        (some { ok := some false, code := some 500, error := some e.str })
        (some { e := some e }) with
    | Except.ok w => some w
    | Except.error _ => none

/-- The 429 envelope built by the rate-limit middleware (line 42). -/
def rateLimitEnvelope : JsObj :=
  { ok := some false, code := some 429, error := some (("Rate limit reached").data) }

/-- The ok:false dict produced by _checkParamsSupplied, as the payload
object _writeResponse receives on a 404 (line 344). -/
def resolveResultToJsObj (r : ResolveResult Handler) : JsObj :=
  { ok := some r.ok, code := some r.code, error := r.error }

/-- The request processor returned by ApiQuick._process (lines 329-393),
for a single request.  The middleware chain is run synchronously in
registration order (Modelled from the spec: the chain runner lives in
lib/middleware.js, which is not part of the sources; the spec specifies
sequential execution where each step either calls its continuation or
terminates the response itself); the body-parser and header-strip steps
have no observable effect in this model.  When rate limiting is enabled
and the limiter rejects the request, the installed middleware step calls
_writeResponse with the 429 envelope as its first (res) argument and
nothing else, exactly as at line 42.  rateAllowed is the value
handleRateLimit returned for the client address.  Anything thrown
synchronously inside the outer try is caught and written as a 500
envelope (lines 383-391).  The result is the write performed on behalf
of the request, if any. -/
def process (cfg : Config) (routes : Str → Option Handler) (rateAllowed : Bool)
    (req : Request) (res : ResArg) : Option WriteRecord :=
  let attempt : Except JsErr (Option WriteRecord) :=
    if cfg.rateLimit = true ∧ rateAllowed = false then
      match writeResponse cfg (ResArg.obj rateLimitEnvelope) none none with
      | Except.error e => Except.error e
      | Except.ok w => Except.ok (some w)
    else
      let responseData := checkParamsSupplied routes cfg.maxDepth req.pathname
      if responseData.ok = false then
        (writeResponse cfg res (some (resolveResultToJsObj responseData)) none).map some
      else
        match responseData.handler with
        | none => Except.ok none
        | some handler =>
          if checkAuthDetails handler.auth cfg.checkAuth req.user req.pass = false then
            (writeResponse cfg res
              (some { code := some 401, ok := some false,
                      error := some (("Auth failed").data) }) none).map some
          else
            Except.ok (handlerStage cfg handler
              (getRequestData cfg req (checkParamsSupplied routes cfg.maxDepth req.pathname).args) res)
  match attempt with
  | Except.ok w => w
  | Except.error e =>
    match writeResponse cfg res
        (some { ok := some false, code := some 500, error := some e.str })
        (some { e := some e }) with
    | Except.ok w => some w
    | Except.error _ => none

/-- The three fixed headers with no authentication hint. -/
def basicHeaders : Headers :=
  { contentType := ("application/json").data
    xContentTypeOptions := ("nosniff").data
    xFrameOptions := ("DENY").data
    wwwAuthenticate := none }

/-- C7: a handler that throws synchronously during its invocation is
caught by the inner try of the deferred invocation block and a 500
response is written whose body is the envelope with ok false, code 500
and the string form of the exception as error; the exception never escapes
handlerStage, so the failure stays local to the one request.  The
hypotheses fix debug mode off (the default, under which no stack detail
is attached) and a nonempty exception string. -/
theorem C7_handlerThrow500 (cfg : Config) (handler : Handler) (d : ReqData)
    (i : Nat) (e : JsErr)
    (hdbg : cfg.debug = false)
    (hstr : e.str ≠ [])
    (hthrow : (handler.length ≥ 2 ∧ handler.asyncRun d = Except.error e)
      ∨ (handler.length < 2 ∧ handler.syncRun d = Except.error e)) :
    handlerStage cfg handler d (ResArg.sink i)
      = some { target := i, code := 500, statusMsg := e.str,
               headers := basicHeaders,
               body := BodyVal.obj { ok := some false, code := some 500,
                                     error := some e.str } } := by
  have hwrite : writeResponse cfg (ResArg.sink i)
      (some { ok := some false, code := some 500, error := some e.str })
      (some { e := some e })
      = Except.ok { target := i, code := 500, statusMsg := e.str,
                    headers := basicHeaders,
                    body := BodyVal.obj { ok := some false, code := some 500,
                                          error := some e.str } } := by
    simp [writeResponse, getHeaders, intOr, strOr, hdbg, hstr, basicHeaders]
  rcases hthrow with ⟨hlen, herr⟩ | ⟨hlen, herr⟩
  · simp only [handlerStage, if_pos hlen, herr]
    rw [hwrite]
  · have hlen2 : ¬handler.length ≥ 2 := by omega
    simp only [handlerStage, if_neg hlen2, herr]
    rw [hwrite]

/-- Witness for C7: a synchronous handler that always throws produces the
500 envelope. -/
theorem C7_handlerThrow500_witness :
    handlerStage cfg0
        { length := 1,
          syncRun := fun _ => Except.error { str := ("Error: boom").data },
          asyncRun := fun _ => Except.ok none }
        (ReqData.reduced (("GET").data) (some []) [] []) (ResArg.sink 0)
      = some { target := 0, code := 500, statusMsg := ("Error: boom").data,
               headers := basicHeaders,
               body := BodyVal.obj { ok := some false, code := some 500,
                                     error := some (("Error: boom").data) } } :=
  C7_handlerThrow500 cfg0
    { length := 1,
      syncRun := fun _ => Except.error { str := ("Error: boom").data },
      asyncRun := fun _ => Except.ok none }
    (ReqData.reduced (("GET").data) (some []) [] []) 0
    { str := ("Error: boom").data }
    rfl (by decide) (Or.inr ⟨by decide, rfl⟩)

/-- C8: the calling convention is chosen by the declared parameter count:
with two or more parameters the handler runs asynchronously and the
response is exactly the one its completion callback produces — and no
response at all is written when the callback never fires — while with
fewer than two parameters the handler runs synchronously and its direct
return value is written immediately. -/
theorem C8_arityDispatch (cfg : Config) (handler : Handler) (d : ReqData) (i : Nat) :
    (handler.length ≥ 2 → handler.asyncRun d = Except.ok none →
      handlerStage cfg handler d (ResArg.sink i) = none)
    ∧ (∀ c w, handler.length ≥ 2 → handler.asyncRun d = Except.ok (some c) →
        dispatcherCb cfg (ResArg.sink i) c = Except.ok w →
        handlerStage cfg handler d (ResArg.sink i) = some w)
    ∧ (∀ r w, handler.length < 2 → handler.syncRun d = Except.ok r →
        writeResponse cfg (ResArg.sink i) r none = Except.ok w →
        handlerStage cfg handler d (ResArg.sink i) = some w) := by
  refine ⟨?_, ?_, ?_⟩
  · intro hlen hrun
    simp [handlerStage, hlen, hrun]
  · intro c w hlen hrun hcb
    simp [handlerStage, hlen, hrun, hcb, Except.map]
  · intro r w hlen hrun hwr
    have hlen2 : ¬handler.length ≥ 2 := by omega
    simp [handlerStage, hlen2, hrun, hwr, Except.map]

/-- Witness for C8: a one-parameter handler returning an object has that
object written directly. -/
theorem C8_arityDispatch_witness :
    handlerStage cfg0
        { length := 1,
          syncRun := fun _ => Except.ok (some { ok := some true }),
          asyncRun := fun _ => Except.ok none }
        (ReqData.reduced (("GET").data) (some []) [] []) (ResArg.sink 0)
      = some { target := 0, code := 200, statusMsg := ("success").data,
               headers := basicHeaders, body := BodyVal.obj { ok := some true } } :=
  (C8_arityDispatch cfg0
    { length := 1,
      syncRun := fun _ => Except.ok (some { ok := some true }),
      asyncRun := fun _ => Except.ok none }
    (ReqData.reduced (("GET").data) (some []) [] []) 0).2.2
    (some { ok := some true })
    { target := 0, code := 200, statusMsg := ("success").data,
      headers := basicHeaders, body := BodyVal.obj { ok := some true } }
    (by decide) rfl rfl

/-- C9: when an asynchronous handler invokes its callback with a truthy
error and no third extra-options argument, the supplied callback reads
the e property of the missing object before any write and therefore
faults with a TypeError instead of writing the error envelope; when an
extra-options object was supplied, the error is stored into its e field
(if absent) and the response is written from (result, extra). -/
theorem C9_callbackExtraFault (cfg : Config) (res : ResArg) (er : JsErr)
    (result : Option JsObj) :
    dispatcherCb cfg res { err := some er, result := result, extra := none }
      = Except.error typeErrorExtraE
    ∧ (∀ ex : ExtraObj,
        dispatcherCb cfg res { err := some er, result := result, extra := some ex }
          = writeResponse cfg res result
              (some (if ex.e = none then { ex with e := some er } else ex))) :=
  ⟨rfl, fun _ => rfl⟩

/-- C2 (code bug): when rate limiting is enabled and the limiter rejects
the request, the middleware step passes the 429 envelope as the res
argument of _writeResponse, so writeHead throws and the outer catch
writes a 500 TypeError envelope instead of the 429 envelope; the request
indeed never reaches routing, auth or the handler (second conjunct: the
outcome is independent of the route table and the request). -/
theorem C2_rateLimit429Bug (cfg : Config) (routes routes2 : Str → Option Handler)
    (req req2 : Request) (i : Nat)
    (hrl : cfg.rateLimit = true) (hdbg : cfg.debug = false) :
    process cfg routes false req (ResArg.sink i)
      = some { target := i, code := 500, statusMsg := typeErrorWriteHead.str,
               headers := basicHeaders,
               body := BodyVal.obj { ok := some false, code := some 500,
                                     error := some typeErrorWriteHead.str } }
    ∧ process cfg routes false req (ResArg.sink i)
      = process cfg routes2 false req2 (ResArg.sink i) := by
  have herr : writeResponse cfg (ResArg.obj rateLimitEnvelope) none none
      = Except.error typeErrorWriteHead := rfl
  have hstr : typeErrorWriteHead.str ≠ [] := by decide
  have hwrite : writeResponse cfg (ResArg.sink i)
      (some { ok := some false, code := some 500, error := some typeErrorWriteHead.str })
      (some { e := some typeErrorWriteHead })
      = Except.ok { target := i, code := 500, statusMsg := typeErrorWriteHead.str,
                    headers := basicHeaders,
                    body := BodyVal.obj { ok := some false, code := some 500,
                                          error := some typeErrorWriteHead.str } } := by
    simp [writeResponse, getHeaders, intOr, strOr, hdbg, hstr, basicHeaders,
      typeErrorWriteHead]
  constructor
  · simp only [process, hrl, and_self, if_true]
    rw [herr]
    dsimp only
    rw [hwrite]
  · simp only [process, hrl, and_self, if_true]

/-- Witness for C2: a rate-limited request under the default-like
configuration with rate limiting enabled yields the 500 TypeError write,
not a 429. -/
theorem C2_rateLimit429Bug_witness :
    process { rateLimit := true } (fun _ => none) false
        { method := ("GET").data, pathname := ("/users/get").data } (ResArg.sink 0)
      = some { target := 0, code := 500, statusMsg := typeErrorWriteHead.str,
               headers := basicHeaders,
               body := BodyVal.obj { ok := some false, code := some 500,
                                     error := some typeErrorWriteHead.str } } :=
  (C2_rateLimit429Bug { rateLimit := true } (fun _ => none) (fun _ => none)
    { method := ("GET").data, pathname := ("/users/get").data }
    { method := ("GET").data, pathname := ("/users/get").data } 0 rfl rfl).1
